/-
Verification of `viber.py` (Viber, a file-system change monitor).

Shallow embedding of the program's core:
  * `str.splitlines(keepends=True)` and the parts of `difflib`
    (`SequenceMatcher` with `isjunk=None`, `unified_diff`) that
    `FileChangeHandler._compute_diff` relies on;
  * the magnitude classification chain of `_process_modification`;
  * `ChangeDatabase.record_change`, `ShadowCopyManager`, and the
    event-handling methods of `FileChangeHandler`, as pure state
    transformers over an explicit engine state.

Machine details that the program leaves to the OS (timestamps, the md5
path key of the shadow store, console output) are abstracted: paths are
modelled as their segment lists (Python's `Path(...).parts`), the shadow
store is keyed by the path itself (the digest is injective by intent),
and timestamps are omitted from records since no property mentions them.
-/
import Mathlib

namespace Viber

/-! ### Characters and prefixes -/

/-- A line of text, as its character list. -/
abbrev Line := List Char

/-- `s.startswith(p)` on character lists: `p` is an initial segment of `s`. -/
def startswith : List Char → List Char → Bool
  | _, [] => true
  | [], _ :: _ => false
  | c :: s, d :: p => c == d && startswith s p

/-- The line-break characters recognised by Python's `str.splitlines`. -/
def pyLineBreaks : List Char :=
  ['\n', '\r', '\x0b', '\x0c', '\x1c', '\x1d', '\x1e', '\x85', '\u2028', '\u2029']

/-- Worker for `splitlines`: `acc` holds the current (reversed) line. -/
def splitlinesAux : List Char → List Char → List Line
  | [], acc => if acc = [] then [] else [acc.reverse]
  | '\r' :: '\n' :: rest, acc => (acc.reverse ++ ['\r', '\n']) :: splitlinesAux rest []
  | c :: rest, acc =>
      if c ∈ pyLineBreaks then (acc.reverse ++ [c]) :: splitlinesAux rest []
      else splitlinesAux rest (c :: acc)

/-- Python `str.splitlines(keepends=True)`: split at line breaks, keeping
the break characters; `"\r\n"` counts as a single break. -/
def splitlines (s : String) : List Line := splitlinesAux s.data []

/-! ### difflib.SequenceMatcher

`unified_diff` constructs `SequenceMatcher(None, a, b)`: no junk
predicate (`bjunk` is always empty), `autojunk` enabled.  We embed
exactly that configuration; the two junk-extension loops of
`find_longest_match` never fire with an empty `bjunk` and are omitted. -/

/-- Association-list lookup (first match wins), mirroring `dict.get`. -/
def alistGetD (m : List (Nat × Nat)) (k d : Nat) : Nat :=
  match m.find? (fun kv => kv.1 == k) with
  | some kv => kv.2
  | none => d

/-- `b2j.setdefault(elt, []).append(j)`: append index `j` to the entry of
line `k`, creating the entry if absent. -/
def b2jInsert (m : List (Line × List Nat)) (k : Line) (j : Nat) : List (Line × List Nat) :=
  match m with
  | [] => [(k, [j])]
  | (k', js) :: rest =>
      if k' = k then (k', js ++ [j]) :: rest else (k', js) :: b2jInsert rest k j

/-- The `b2j` table of `SequenceMatcher.__chain_b`: for each line of `b`,
the ascending list of its indices in `b`. -/
def buildB2j (b : List Line) : List (Line × List Nat) :=
  b.enum.foldl (fun m ij => b2jInsert m ij.2 ij.1) []

/-- The `autojunk` heuristic of `__chain_b`: when `b` has at least 200
lines, lines occupying more than 1% of `b` are dropped from `b2j`. -/
def applyAutojunk (m : List (Line × List Nat)) (n : Nat) : List (Line × List Nat) :=
  if 200 ≤ n then
    let ntest := n / 100 + 1
    m.filter (fun kv => decide (kv.2.length ≤ ntest))
  else m

/-- `b2j.get(k, [])`. -/
def b2jGet (m : List (Line × List Nat)) (k : Line) : List Nat :=
  match m.find? (fun kv => kv.1 == k) with
  | some kv => kv.2
  | none => []

/-- The inner `for j in b2j.get(a[i], nothing)` loop of
`find_longest_match`: skips `j < blo`, breaks at `j ≥ bhi` (the index
lists are ascending), extends runs via `j2len`, and tracks the best
block seen so far.  Python's `j2len.get(j-1, 0)` looks up `-1` when
`j = 0`, which is never a key, hence the explicit `j = 0` case. -/
def flmInner (blo bhi : Nat) (j2len : List (Nat × Nat)) (i : Nat) :
    List Nat → List (Nat × Nat) → Nat × Nat × Nat → List (Nat × Nat) × (Nat × Nat × Nat)
  | [], newj2len, best => (newj2len, best)
  | j :: js, newj2len, best =>
      if j < blo then flmInner blo bhi j2len i js newj2len best
      else if bhi ≤ j then (newj2len, best)
      else
        let k := (if j = 0 then 0 else alistGetD j2len (j - 1) 0) + 1
        let newj2len' := (j, k) :: newj2len
        let best' := if best.2.2 < k then (i + 1 - k, j + 1 - k, k) else best
        flmInner blo bhi j2len i js newj2len' best'

/-- The main loop of `find_longest_match` over `i in range(alo, ahi)`. -/
def flmMain (a : List Line) (b2j : List (Line × List Nat)) (alo ahi blo bhi : Nat) :
    Nat × Nat × Nat :=
  ((List.range' alo (ahi - alo)).foldl
    (fun st i =>
      let js := b2jGet b2j (a.getD i [])
      flmInner blo bhi st.1 i js [] st.2)
    ([], (alo, blo, 0))).2

/-- The "extend by matching elements on the left" loop of
`find_longest_match` (with `bjunk = ∅`, `isbjunk` is always false).
`fuel` only bounds the iteration count: every pass needs `alo < besti`
and lowers `besti` by one, so starting `fuel` at `besti` is exact. -/
def flmExtendLeftAux (a b : List Line) (alo blo : Nat) :
    Nat → Nat → Nat → Nat → Nat × Nat × Nat
  | 0, besti, bestj, bestsize => (besti, bestj, bestsize)
  | fuel + 1, besti, bestj, bestsize =>
      if alo < besti ∧ blo < bestj ∧ a.getD (besti - 1) [] = b.getD (bestj - 1) [] then
        flmExtendLeftAux a b alo blo fuel (besti - 1) (bestj - 1) (bestsize + 1)
      else (besti, bestj, bestsize)

/-- Entry point of the left-extension loop. -/
def flmExtendLeft (a b : List Line) (alo blo besti bestj bestsize : Nat) :
    Nat × Nat × Nat :=
  flmExtendLeftAux a b alo blo besti besti bestj bestsize

/-- The "extend on the right" loop of `find_longest_match`; every pass
needs `besti + bestsize < ahi` and raises `bestsize` by one, so starting
the fuel at `ahi - (besti + bestsize)` is exact. -/
def flmExtendRightAux (a b : List Line) (ahi bhi besti bestj : Nat) :
    Nat → Nat → Nat
  | 0, bestsize => bestsize
  | fuel + 1, bestsize =>
      if besti + bestsize < ahi ∧ bestj + bestsize < bhi ∧
          a.getD (besti + bestsize) [] = b.getD (bestj + bestsize) [] then
        flmExtendRightAux a b ahi bhi besti bestj fuel (bestsize + 1)
      else bestsize

/-- Entry point of the right-extension loop. -/
def flmExtendRight (a b : List Line) (ahi bhi besti bestj bestsize : Nat) : Nat :=
  flmExtendRightAux a b ahi bhi besti bestj (ahi - (besti + bestsize)) bestsize

/-- `SequenceMatcher.find_longest_match(alo, ahi, blo, bhi)` with
`isjunk=None`: the longest block that matches inside the rectangle,
ties resolved toward the earliest start in `a`, then in `b`. -/
def findLongestMatch (a b : List Line) (b2j : List (Line × List Nat))
    (alo ahi blo bhi : Nat) : Nat × Nat × Nat :=
  let (besti, bestj, bestsize) := flmMain a b2j alo ahi blo bhi
  let (besti, bestj, bestsize) := flmExtendLeft a b alo blo besti bestj bestsize
  let bestsize := flmExtendRight a b ahi bhi besti bestj bestsize
  (besti, bestj, bestsize)

/-- The divide-and-conquer of `get_matching_blocks`, in block order.  The
source keeps an explicit LIFO queue and sorts the collected blocks at the
end; since every block found left of the pivot starts strictly before it
and every block right of it strictly after, the sorted result is exactly
this in-order traversal.  `fuel` bounds the recursion depth: each
recursive rectangle is strictly smaller in `(ahi - alo) + (bhi - blo)`
(the pivot block has size ≥ 1), so `a.length + b.length + 1` suffices. -/
def matchingBlocksRec (a b : List Line) (b2j : List (Line × List Nat)) :
    Nat → Nat → Nat → Nat → Nat → List (Nat × Nat × Nat)
  | 0, _, _, _, _ => []
  | fuel + 1, alo, ahi, blo, bhi =>
      let (i, j, k) := findLongestMatch a b b2j alo ahi blo bhi
      if k = 0 then []
      else
        (if alo < i ∧ blo < j then matchingBlocksRec a b b2j fuel alo i blo j else [])
          ++ [(i, j, k)]
          ++ (if i + k < ahi ∧ j + k < bhi then
                matchingBlocksRec a b b2j fuel (i + k) ahi (j + k) bhi
              else [])

/-- The adjacent-block merge loop at the end of `get_matching_blocks`. -/
def mergeAdjacent (blocks : List (Nat × Nat × Nat)) : List (Nat × Nat × Nat) :=
  let st := blocks.foldl
    (fun st blk =>
      let (i1, j1, k1, acc) := st
      let (i2, j2, k2) := blk
      if i1 + k1 = i2 ∧ j1 + k1 = j2 then (i1, j1, k1 + k2, acc)
      else if k1 ≠ 0 then (i2, j2, k2, acc ++ [(i1, j1, k1)])
      else (i2, j2, k2, acc))
    (0, 0, 0, [])
  let (i1, j1, k1, acc) := st
  if k1 ≠ 0 then acc ++ [(i1, j1, k1)] else acc

/-- `SequenceMatcher.get_matching_blocks()`: the merged block list plus
the `(len(a), len(b), 0)` sentinel. -/
def getMatchingBlocks (a b : List Line) : List (Nat × Nat × Nat) :=
  let b2j := applyAutojunk (buildB2j b) b.length
  mergeAdjacent (matchingBlocksRec a b b2j (a.length + b.length + 1) 0 a.length 0 b.length)
    ++ [(a.length, b.length, 0)]

/-- Opcode tags of `get_opcodes`. -/
inductive Tag | replace | delete | insert | equal
  deriving DecidableEq, Repr

/-- One opcode: `(tag, i1, i2, j1, j2)`. -/
abbrev Opcode := Tag × Nat × Nat × Nat × Nat

/-- `SequenceMatcher.get_opcodes()`. -/
def getOpcodes (a b : List Line) : List Opcode :=
  ((getMatchingBlocks a b).foldl
    (fun st blk =>
      let (i, j, acc) := st
      let (ai, bj, size) := blk
      let acc :=
        if i < ai ∧ j < bj then acc ++ [(Tag.replace, i, ai, j, bj)]
        else if i < ai then acc ++ [(Tag.delete, i, ai, j, bj)]
        else if j < bj then acc ++ [(Tag.insert, i, ai, j, bj)]
        else acc
      let acc := if size ≠ 0 then acc ++ [(Tag.equal, ai, ai + size, bj, bj + size)] else acc
      (ai + size, bj + size, acc))
    ((0 : Nat), (0 : Nat), ([] : List Opcode))).2.2

/-- `SequenceMatcher.get_grouped_opcodes(n)` (the default `n = 3` is used
by `unified_diff`).  Index arithmetic uses truncated subtraction, which
agrees with Python here because `i1 ≤ i2` and `j1 ≤ j2` in every opcode. -/
def getGroupedOpcodes (a b : List Line) : List (List Opcode) :=
  let n := 3
  let codes := getOpcodes a b
  let codes := if codes = [] then [(Tag.equal, 0, 1, 0, 1)] else codes
  let codes :=
    match codes with
    | (Tag.equal, i1, i2, j1, j2) :: rest =>
        (Tag.equal, max i1 (i2 - n), i2, max j1 (j2 - n), j2) :: rest
    | _ => codes
  let codes :=
    match codes.getLast? with
    | some (Tag.equal, i1, i2, j1, j2) =>
        codes.dropLast ++ [(Tag.equal, i1, min i2 (i1 + n), j1, min j2 (j1 + n))]
    | _ => codes
  let nn := n + n
  let st := codes.foldl
    (fun st code =>
      let (group, out) := st
      let (tag, i1, i2, j1, j2) := code
      if tag = Tag.equal ∧ nn < i2 - i1 then
        let out := out ++ [group ++ [(Tag.equal, i1, min i2 (i1 + n), j1, min j2 (j1 + n))]]
        (([(tag, max i1 (i2 - n), i2, max j1 (j2 - n), j2)] : List Opcode), out)
      else (group ++ [(tag, i1, i2, j1, j2)], out))
    (([] : List Opcode), ([] : List (List Opcode)))
  let (group, out) := st
  if group ≠ [] ∧ ¬(group.length = 1 ∧ (group.headD (Tag.equal, 0, 0, 0, 0)).1 = Tag.equal) then
    out ++ [group]
  else out

/-- Python `a[i1:i2]`. -/
def slice (a : List Line) (i1 i2 : Nat) : List Line := (a.drop i1).take (i2 - i1)

/-- `difflib._format_range_unified(start, stop)`. -/
def formatRangeUnified (start stop : Nat) : List Char :=
  let beginning := start + 1
  let length := stop - start
  if length = 1 then (Nat.repr beginning).data
  else
    let beginning := if length = 0 then beginning - 1 else beginning
    (Nat.repr beginning).data ++ [','] ++ (Nat.repr length).data

/-- The per-group lines of `unified_diff`: the `@@` hunk header followed
by context, `-` and `+` lines. -/
def unifiedDiffGroup (a b : List Line) (group : List Opcode) : List Line :=
  match group with
  | [] => []
  | first :: _ =>
      let last := group.getLastD first
      let header := "@@ -".data ++ formatRangeUnified first.2.1 last.2.2.1
        ++ " +".data ++ formatRangeUnified first.2.2.2.1 last.2.2.2.2 ++ " @@".data
      group.foldl
        (fun out code =>
          let (tag, i1, i2, j1, j2) := code
          if tag = Tag.equal then out ++ (slice a i1 i2).map (fun l => ' ' :: l)
          else
            let out := if tag = Tag.replace ∨ tag = Tag.delete then
                out ++ (slice a i1 i2).map (fun l => '-' :: l)
              else out
            if tag = Tag.replace ∨ tag = Tag.insert then
              out ++ (slice b j1 j2).map (fun l => '+' :: l)
            else out)
        [header]

/-- `difflib.unified_diff(a, b, lineterm='')` with empty file names and
dates: the `--- ` / `+++ ` headers (emitted once, before the first
group), then each group's lines. -/
def unifiedDiff (a b : List Line) : List Line :=
  let groups := getGroupedOpcodes a b
  match groups with
  | [] => []
  | _ => "--- ".data :: "+++ ".data :: groups.foldl (fun out g => out ++ unifiedDiffGroup a b g) []

/-! ### FileChangeHandler._compute_diff -/

/-- The counting loop of `_compute_diff`: `+` lines that are not the
`+++` header count as added, `-` lines that are not the `---` header as
deleted (an `elif`, so a line is counted at most once). -/
def countDiffLines (lines : List Line) : Nat × Nat :=
  lines.foldl
    (fun st line =>
      let (added, deleted) := st
      if startswith line ['+'] ∧ ¬ startswith line ['+', '+', '+'] then (added + 1, deleted)
      else if startswith line ['-'] ∧ ¬ startswith line ['-', '-', '-'] then (added, deleted + 1)
      else (added, deleted))
    (0, 0)

/-- `FileChangeHandler._compute_diff(old_content, new_content)`:
`(lines added, lines deleted)` of the unified diff of the two texts. -/
def compute_diff (old_content new_content : String) : Nat × Nat :=
  countDiffLines (unifiedDiff (splitlines old_content) (splitlines new_content))

/-! ### Magnitude classification

The `if/elif` chain of `_process_modification` (source lines 231–238)
that labels a size change; it only feeds the console line, never the
database.  `size_before * 0.5` and `size_before * 2` are computed over
`ℚ` (Python evaluates the former in binary floating point, which is
exact halving for any file size below 2^53). -/

/-- A magnitude tag, with the byte delta the message carries. -/
inductive Magnitude
  | zeroedOut
  | largeDeletion (delta : Nat)
  | largeAddition (delta : Nat)
  deriving DecidableEq, Repr

/-- The magnitude classification chain: first matching rule wins
(`if/elif`), `none` when no rule matches.  `size_before` is truthy in
Python iff it is nonzero. -/
def classify (size_before size_after : Nat) : Option Magnitude :=
  if size_after = 0 ∧ 0 < size_before then some Magnitude.zeroedOut
  else if size_before ≠ 0 ∧ (size_after : ℚ) < (size_before : ℚ) * (1 / 2) then
    some (Magnitude.largeDeletion (size_before - size_after))
  else if size_before ≠ 0 ∧ (size_before : ℚ) * 2 < (size_after : ℚ) then
    some (Magnitude.largeAddition (size_after - size_before))
  else none

/-! ### Data model: paths, filesystem, records, engine state -/

/-- A filesystem path, as its segment list — Python's `Path(p).parts`
(for an absolute path the first segment is `"/"`). -/
abbrev PPath := List String

/-- What the filesystem holds at a path: a directory, or a file with its
text content (decoded with `errors='ignore'`), its byte size, whether a
strict utf-8 probe of it succeeds (`isText`), and whether opening it for
reading succeeds at all (`readOk`). -/
inductive Node
  | dir
  | file (content : String) (size : Nat) (isText : Bool) (readOk : Bool)
  deriving DecidableEq

/-- The snapshot kept by `ShadowCopyManager` for one path: the copied
content and the copied file's byte size. -/
structure Shadow where
  content : String
  size : Nat
  deriving DecidableEq

/-- One row of the `file_changes` table (`record_change`'s INSERT).  The
wall-clock `timestamp` column is omitted: no verified property mentions
it. -/
structure ChangeRecord where
  file_path : PPath
  event_type : String
  size_before : Option Nat
  size_after : Option Nat
  size_change : Option Int
  lines_added : Nat
  lines_deleted : Nat
  lines_changed : Nat
  deriving DecidableEq

/-- The state an event handler acts on: the filesystem it reads, the
shadow store, the change database (append-only list), and the
`self.processing` guard set (a duplicate-free list). -/
structure EngineState where
  fs : PPath → Option Node
  shadows : PPath → Option Shadow
  records : List ChangeRecord
  processing : List PPath

/-- The one failure mode we let the external stores signal: the record
store's INSERT raised. -/
inductive EngineError
  | dbError
  deriving DecidableEq, Repr

/-- `set.add`: insert a path if absent. -/
def addGuard (l : List PPath) (p : PPath) : List PPath :=
  if p ∈ l then l else p :: l

/-- `set.discard`: remove a path. -/
def dropGuard (l : List PPath) (p : PPath) : List PPath :=
  l.filter (fun q => decide (q ≠ p))

/-! ### ChangeDatabase.record_change -/

/-- `ChangeDatabase.record_change`: build the row (deriving
`size_change` when both sizes are present and
`lines_changed = lines_added + lines_deleted`) and append it. -/
def record_change (db : List ChangeRecord) (file_path : PPath) (event_type : String)
    (size_before size_after : Option Nat) (lines_added lines_deleted : Nat) :
    List ChangeRecord :=
  let size_change : Option Int :=
    match size_before, size_after with
    | some b, some a => some ((a : Int) - (b : Int))
    | _, _ => none
  db ++ [{ file_path := file_path, event_type := event_type,
           size_before := size_before, size_after := size_after,
           size_change := size_change, lines_added := lines_added,
           lines_deleted := lines_deleted,
           lines_changed := lines_added + lines_deleted }]

/-! ### ShadowCopyManager -/

/-- `ShadowCopyManager.has_shadow`. -/
def has_shadow (st : EngineState) (p : PPath) : Bool :=
  (st.shadows p).isSome

/-- `ShadowCopyManager.get_shadow_content`: the shadow's content when it
exists (read with `errors='ignore'`, so it does not fail on a readable
shadow), else `None`. -/
def get_shadow_content (st : EngineState) (p : PPath) : Option String :=
  (st.shadows p).map Shadow.content

/-- `ShadowCopyManager.get_shadow_size`. -/
def get_shadow_size (st : EngineState) (p : PPath) : Option Nat :=
  (st.shadows p).map Shadow.size

/-- `ShadowCopyManager.create_shadow`: when the path holds a file, copy
its content and size over any previous shadow; when it is missing (or a
directory, where `shutil.copy2` raises and the `except` returns False)
leave the store unchanged. -/
def create_shadow (st : EngineState) (p : PPath) : EngineState :=
  match st.fs p with
  | some (Node.file content size _ _) =>
      { st with shadows := fun q => if q = p then some ⟨content, size⟩ else st.shadows q }
  | _ => st

/-- `ShadowCopyManager.update_shadow` delegates to `create_shadow`. -/
def update_shadow (st : EngineState) (p : PPath) : EngineState :=
  create_shadow st p

/-! ### FileChangeHandler -/

/-- The exclusion set of `_should_process`. -/
def excluded : List String :=
  [".git", "__pycache__", "node_modules", ".viber_shadow", ".viber.db", "venv", ".env"]

/-- `FileChangeHandler._should_process`: reject directories; reject any
path one of whose segments is in the exclusion set or starts with `"."`;
then probe the file as utf-8 text (a probe on a missing, unreadable or
non-text file raises and is caught as a rejection). -/
def should_process (fs : PPath → Option Node) (p : PPath) : Bool :=
  if fs p = some Node.dir then false
  else if p.any (fun part => decide (part ∈ excluded) || startswith part.data ['.']) then false
  else
    match fs p with
    | some (Node.file _ _ isText readOk) => readOk && isText
    | _ => false

/-- The body of `_process_modification`'s `try:` block (source lines
202–257), entered with the guard already added.  Returns the escaping
exception, if any, together with the state reached.  `dbFail` drives the
record store: when true, the INSERT raises. -/
def process_modification_body (dbFail : Bool) (st : EngineState) (p : PPath) :
    Option EngineError × EngineState :=
  if ¬ should_process st.fs p then (none, st)
  else
    match st.fs p with
    | some (Node.file new_content size_after _ readOk) =>
        -- `open(..., errors='ignore')` fails only when the open itself fails
        if ¬ readOk then (none, st)
        else if has_shadow st p then
          -- both getters read the same stored shadow, so they are `some`
          -- together; a `None` content falls through to the shadow update
          -- (the code's `if old_content is not None` has no else branch)
          match get_shadow_content st p, get_shadow_size st p with
          | some old_content, some size_before =>
              let lad := compute_diff old_content new_content
              let _magnitude := classify size_before size_after
              if dbFail then (some EngineError.dbError, st)
              else
                let db := record_change st.records p "modified"
                  (some size_before) (some size_after) lad.1 lad.2
                let st := { st with records := db }
                (none, update_shadow st p)
          | _, _ => (none, update_shadow st p)
        else
          -- first time seeing this file: console note only, then shadow
          (none, update_shadow st p)
    | _ =>
        -- `os.path.exists` false (`some Node.dir` is unreachable: directories
        -- were rejected by `should_process` above)
        (none, st)

/-- `FileChangeHandler._process_modification`: drop the event if the
guard is held; otherwise add the guard, run the body, and release the
guard on every exit (the `finally:`) — an exception from the body still
escapes after the release. -/
def process_modification (dbFail : Bool) (st : EngineState) (p : PPath) :
    Option EngineError × EngineState :=
  if p ∈ st.processing then (none, st)
  else
    let st1 := { st with processing := addGuard st.processing p }
    let r := process_modification_body dbFail st1 p
    (r.1, { r.2 with processing := dropGuard r.2.processing p })

/-- `FileChangeHandler._process_creation`: filter, then (if the file
exists) insert a `created` row with no `size_before` and zero line
counts, and create the initial shadow.  The guard set is never
consulted. -/
def process_creation (dbFail : Bool) (st : EngineState) (p : PPath) :
    Option EngineError × EngineState :=
  if ¬ should_process st.fs p then (none, st)
  else
    match st.fs p with
    | some (Node.file _ size_after _ _) =>
        if dbFail then (some EngineError.dbError, st)
        else
          let db := record_change st.records p "created" none (some size_after) 0 0
          let st := { st with records := db }
          (none, create_shadow st p)
    | _ => (none, st)

/-- A raw watchdog event, as consumed by the handler callbacks. -/
structure Event where
  src_path : PPath
  is_directory : Bool

/-- `FileChangeHandler.on_modified`: forward non-directory events; no
exception handling of its own. -/
def on_modified (dbFail : Bool) (st : EngineState) (e : Event) :
    Option EngineError × EngineState :=
  if e.is_directory then (none, st) else process_modification dbFail st e.src_path

/-- `FileChangeHandler.on_created`: forward non-directory events after
the settle delay (`time.sleep`, not modelled); no exception handling of
its own. -/
def on_created (dbFail : Bool) (st : EngineState) (e : Event) :
    Option EngineError × EngineState :=
  if e.is_directory then (none, st) else process_creation dbFail st e.src_path

/-! ### Concrete states used by the witnesses and counterexamples -/

/-- Path of the end-to-end record-correctness witness. -/
def pC1 : PPath := ["/", "w", "f.txt"]

/-- A state holding the C1 test vector: snapshot `"a\nb\nc\n"`, current
content `"a\nx\nc\nd\n"`. -/
def stC1 : EngineState :=
  { fs := fun q => if q = pC1 then some (Node.file "a\nx\nc\nd\n" 8 true true) else none
    shadows := fun q => if q = pC1 then some ⟨"a\nb\nc\n", 6⟩ else none
    records := []
    processing := [] }

/-- Path of the storage-failure scenario. -/
def pC4 : PPath := ["/", "w", "a.txt"]

/-- A tracked file with a prior snapshot, about to hit a failing record
store. -/
def stC4 : EngineState :=
  { fs := fun q => if q = pC4 then some (Node.file "hello\n" 6 true true) else none
    shadows := fun q => if q = pC4 then some ⟨"old\n", 4⟩ else none
    records := []
    processing := [] }

/-- Path of the creation-under-guard scenario. -/
def pC5 : PPath := ["/", "w", "c.txt"]

/-- A state whose guard set already holds `pC5`, with the file present
on disk. -/
def stC5 : EngineState :=
  { fs := fun q => if q = pC5 then some (Node.file "hi\n" 3 true true) else none
    shadows := fun _ => none
    records := []
    processing := [pC5] }

/-- Path of the guard-release witness. -/
def pC6 : PPath := ["/", "w", "g.txt"]

/-- An empty state (no files, free guard). -/
def stC6 : EngineState :=
  { fs := fun _ => none, shadows := fun _ => none, records := [], processing := [] }

/-- The same state with the guard held for `pC6`. -/
def stC6h : EngineState :=
  { fs := fun _ => none, shadows := fun _ => none, records := [], processing := [pC6] }

/-- Path of the first-observation witness. -/
def pC7 : PPath := ["/", "w", "new.txt"]

/-- A readable text file with no prior snapshot. -/
def stC7 : EngineState :=
  { fs := fun q => if q = pC7 then some (Node.file "hello\n" 6 true true) else none
    shadows := fun _ => none
    records := []
    processing := [] }

/-- A path with a `.git` segment. -/
def pC8 : PPath := ["/", "repo", ".git", "config"]

/-- An empty state for the exclusion-filter witness. -/
def stC8 : EngineState :=
  { fs := fun _ => none, shadows := fun _ => none, records := [], processing := [] }

/-- Path of the duplicate-creation witness. -/
def pC9 : PPath := ["/", "w", "dup.txt"]

/-- A file that already has a (different) snapshot when a creation
event arrives. -/
def stC9 : EngineState :=
  { fs := fun q => if q = pC9 then some (Node.file "v\n" 2 true true) else none
    shadows := fun q => if q = pC9 then some ⟨"old\n", 4⟩ else none
    records := []
    processing := [] }

/-- A watch root that lies beneath a hidden directory. -/
def rootC10 : PPath := ["/", "home", "u", ".config", "proj"]

/-- A file under that root. -/
def pC10 : PPath := ["/", "home", "u", ".config", "proj", "main.py"]

/-- An empty state for the hidden-root witness. -/
def stC10 : EngineState :=
  { fs := fun _ => none, shadows := fun _ => none, records := [], processing := [] }

/-! ### Basic lemmas about the components -/

theorem create_shadow_fs (st : EngineState) (p : PPath) : (create_shadow st p).fs = st.fs := by
  unfold create_shadow
  split <;> rfl

theorem create_shadow_records (st : EngineState) (p : PPath) :
    (create_shadow st p).records = st.records := by
  unfold create_shadow
  split <;> rfl

theorem create_shadow_processing (st : EngineState) (p : PPath) :
    (create_shadow st p).processing = st.processing := by
  unfold create_shadow
  split <;> rfl

theorem create_shadow_shadows_self (st : EngineState) (p : PPath)
    (content : String) (size : Nat) (t r : Bool)
    (hfs : st.fs p = some (Node.file content size t r)) :
    (create_shadow st p).shadows p = some ⟨content, size⟩ := by
  unfold create_shadow
  rw [hfs]
  simp

theorem not_mem_dropGuard (l : List PPath) (p : PPath) : p ∉ dropGuard l p := by
  simp [dropGuard]

theorem dropGuard_eq_of_not_mem {l : List PPath} {p : PPath} (h : p ∉ l) :
    dropGuard l p = l := by
  unfold dropGuard
  refine List.filter_eq_self.mpr fun q hq => ?_
  have hqp : q ≠ p := fun e => h (e ▸ hq)
  simpa using hqp

theorem dropGuard_addGuard {l : List PPath} {p : PPath} (h : p ∉ l) :
    dropGuard (addGuard l p) p = l := by
  unfold addGuard
  rw [if_neg h]
  have h2 : dropGuard (p :: l) p = dropGuard l p := by
    unfold dropGuard
    rw [List.filter_cons_of_neg (by simp)]
  rw [h2, dropGuard_eq_of_not_mem h]

/-- The `try:` body of `_process_modification` never touches the guard
set: only the entry check and the `finally:` do. -/
theorem body_preserves_processing (dbFail : Bool) (st : EngineState) (p : PPath) :
    (process_modification_body dbFail st p).2.processing = st.processing := by
  unfold process_modification_body
  split
  · rfl
  split
  · split
    · rfl
    split
    · split
      · dsimp only
        split
        · rfl
        · exact create_shadow_processing _ _
      · exact create_shadow_processing _ _
    · exact create_shadow_processing _ _
  · rfl

/-- A path one of whose segments is excluded (or hidden) fails
`_should_process`, whatever the filesystem holds at it. -/
theorem should_process_false_of_seg (fs : PPath → Option Node) (p : PPath) (s : String)
    (hs : s ∈ p) (hseg : (decide (s ∈ excluded) || startswith s.data ['.']) = true) :
    should_process fs p = false := by
  unfold should_process
  by_cases h1 : fs p = some Node.dir
  · rw [if_pos h1]
  · rw [if_neg h1, if_pos (List.any_eq_true.mpr ⟨s, hs, hseg⟩)]

/-- A filtered-out modification event leaves the state exactly as it
was: the guard is added and then released again by the `finally:`. -/
theorem process_modification_of_filtered (dbFail : Bool) (st : EngineState) (p : PPath)
    (h : should_process st.fs p = false) :
    process_modification dbFail st p = (none, st) := by
  unfold process_modification
  by_cases hp : p ∈ st.processing
  · rw [if_pos hp]
  · rw [if_neg hp]
    have hb : process_modification_body dbFail
        { st with processing := addGuard st.processing p } p
        = (none, { st with processing := addGuard st.processing p }) := by
      unfold process_modification_body
      rw [if_pos (by rw [show ({ st with processing := addGuard st.processing p }
        : EngineState).fs = st.fs from rfl, h]; simp)]
    simp only [hb, dropGuard_addGuard hp]

/-- A filtered-out creation event leaves the state untouched. -/
theorem process_creation_of_filtered (dbFail : Bool) (st : EngineState) (p : PPath)
    (h : should_process st.fs p = false) :
    process_creation dbFail st p = (none, st) := by
  unfold process_creation
  rw [if_pos (by rw [h]; simp)]

/-- If the probe of `_should_process` succeeded on a file, that file was
readable and decoded as text. -/
theorem readOk_isText_of_should_process {fs : PPath → Option Node} {p : PPath}
    {content : String} {size : Nat} {t r : Bool}
    (hfs : fs p = some (Node.file content size t r))
    (h : should_process fs p = true) : r = true ∧ t = true := by
  unfold should_process at h
  rw [hfs] at h
  simp at h
  exact ⟨h.2.1, h.2.2⟩

/-- A creation event that passes the filter on an existing file appends
the `created` row and then copies the file into the shadow store. -/
theorem process_creation_success (st : EngineState) (p : PPath)
    (content : String) (size : Nat) (t r : Bool)
    (hfs : st.fs p = some (Node.file content size t r))
    (hshould : should_process st.fs p = true) :
    process_creation false st p
      = (none, create_shadow
          { st with records := record_change st.records p "created" none (some size) 0 0 } p) := by
  unfold process_creation
  rw [if_neg (by simp [hshould]), hfs]
  rfl

/-! ### The claims -/

/-- C1: for a modification whose prior snapshot content is `"a\nb\nc\n"`
and whose new content is `"a\nx\nc\nd\n"`, the persisted ChangeRecord
has `lines_added = 2`, `lines_deleted = 1` and `lines_changed = 3` (the
full appended row is given, including the derived size delta). -/
theorem record_correctness_end_to_end (st : EngineState) (p : PPath)
    (size sb : Nat) (t r : Bool)
    (hguard : p ∉ st.processing)
    (hfs : st.fs p = some (Node.file "a\nx\nc\nd\n" size t r))
    (hshould : should_process st.fs p = true)
    (hshadow : st.shadows p = some ⟨"a\nb\nc\n", sb⟩) :
    (process_modification false st p).2.records
      = st.records
        ++ [⟨p, "modified", some sb, some size, some ((size : Int) - (sb : Int)), 2, 1, 3⟩] := by
  obtain ⟨hr, ht⟩ := readOk_isText_of_should_process hfs hshould
  subst hr
  subst ht
  have hcd : compute_diff "a\nb\nc\n" "a\nx\nc\nd\n" = (2, 1) := by decide
  have hbody2 : (process_modification_body false
      { st with processing := addGuard st.processing p } p).2.records
      = st.records
        ++ [⟨p, "modified", some sb, some size, some ((size : Int) - (sb : Int)), 2, 1, 3⟩] := by
    simp [process_modification_body, hshould, hfs, has_shadow, get_shadow_content,
      get_shadow_size, hshadow, hcd, update_shadow, create_shadow_records, record_change]
  unfold process_modification
  rw [if_neg hguard]
  dsimp only
  exact hbody2

/-- C1, witness: the record appended for the concrete state `stC1`. -/
theorem record_correctness_end_to_end_witness :
    (process_modification false stC1 pC1).2.records
      = [⟨pC1, "modified", some 6, some 8, some 2, 2, 1, 3⟩] := by
  have h := record_correctness_end_to_end stC1 pC1 8 6 true true
    (by simp [stC1]) (by simp [stC1]) (by decide) (by simp [stC1])
  simpa using h

/-- C2: the magnitude classification evaluates its rules in priority
order with short-circuit: `(100, 0)` is "zeroed-out" only (the function
returns a single tag, so "large-deletion" cannot also fire), `(100, 40)`
is a large deletion carrying delta 60, `(100, 250)` a large addition
carrying delta 150, and `(100, 90)` gets no tag. -/
theorem magnitude_priority :
    classify 100 0 = some Magnitude.zeroedOut ∧
    classify 100 40 = some (Magnitude.largeDeletion 60) ∧
    classify 100 250 = some (Magnitude.largeAddition 150) ∧
    classify 100 90 = none := by
  refine ⟨?_, ?_, ?_, ?_⟩ <;> (simp only [classify]; norm_num)

/-- C3: the diff-symmetry property fails on the code.  For
`A = "--x\n"` and `B = ""`, the single deleted line is rendered as
`"---x\n"`, which the counting loop of `_compute_diff` skips as if it
were the `---` file header, so `diff(A, B).lines_deleted = 0` while
`diff(B, A).lines_added = 1`: the two components of the symmetry claim
cannot both hold at this input. -/
theorem diff_symmetry_fails_on_dashed_lines :
    compute_diff "--x\n" "" = (0, 0) ∧
    compute_diff "" "--x\n" = (1, 0) ∧
    ¬ ((compute_diff "--x\n" "").2 = (compute_diff "" "--x\n").1 ∧
       (compute_diff "--x\n" "").1 = (compute_diff "" "--x\n").2) := by
  decide

/-- C4: a record-store failure is NOT caught at the per-event boundary.
With a failing store, the modification handler of `stC4` lets the error
escape `on_modified` (first component `some dbError`): no record is
appended, the snapshot refresh that follows the insert is skipped, and
only the guard release (the `finally:`) still happens. -/
theorem storage_failure_escapes_handler :
    (on_modified true stC4 { src_path := pC4, is_directory := false }).1
        = some EngineError.dbError ∧
    (on_modified true stC4 { src_path := pC4, is_directory := false }).2.records = [] ∧
    (on_modified true stC4 { src_path := pC4, is_directory := false }).2.shadows pC4
        = some ⟨"old\n", 4⟩ ∧
    (on_modified true stC4 { src_path := pC4, is_directory := false }).2.processing = [] := by
  decide

/-- C5, counterexample: a creation event for a path whose guard is held
is NOT dropped — in `stC5` the guard holds `pC5`, yet the creation
handler writes a `created` record and a snapshot. -/
theorem creation_guard_counterexample :
    pC5 ∈ stC5.processing ∧
    (process_creation false stC5 pC5).2.records
      = [⟨pC5, "created", none, some 3, none, 0, 0, 0⟩] ∧
    (process_creation false stC5 pC5).2.shadows pC5 = some ⟨"hi\n", 3⟩ := by
  decide

/-- C5, amended: guarded entry applies only to modification events.
Creation processing never consults or modifies the guard set: its
outcome is identical whatever the set holds, and the set passes through
unchanged. -/
theorem creation_ignores_guard (dbFail : Bool) (st : EngineState) (p : PPath)
    (S : List PPath) :
    process_creation dbFail { st with processing := S } p
      = ((process_creation dbFail st p).1,
         { (process_creation dbFail st p).2 with processing := S }) := by
  unfold process_creation
  dsimp only
  split
  · rfl
  · split
    · split
      · rfl
      · rename_i hfs2 _
        unfold create_shadow
        dsimp only
        rw [hfs2]
    · rfl

/-- C6: the per-path guard is released on every exit of modification
processing — whenever the handler actually enters (guard initially
free), the path is absent from the guard set afterwards (in fact the
set is restored exactly), whatever branch was taken, the record store
failing included; and while the guard is held, a second modification
event for the same path returns immediately with the state untouched
(no record, no snapshot). -/
theorem guard_release_and_exclusivity (dbFail : Bool) (st : EngineState) (p : PPath) :
    (p ∉ st.processing →
      (process_modification dbFail st p).2.processing = st.processing ∧
      p ∉ (process_modification dbFail st p).2.processing) ∧
    (p ∈ st.processing → process_modification dbFail st p = (none, st)) := by
  constructor
  · intro hp
    have heq : (process_modification dbFail st p).2.processing = st.processing := by
      unfold process_modification
      rw [if_neg hp]
      dsimp only
      rw [body_preserves_processing]
      exact dropGuard_addGuard hp
    refine ⟨heq, ?_⟩
    rw [heq]
    exact hp
  · intro hp
    unfold process_modification
    rw [if_pos hp]

/-- C6, witness: both halves at concrete states — entering on a free
guard restores the empty set; re-entering on a held guard is a no-op. -/
theorem guard_release_and_exclusivity_witness :
    ((process_modification false stC6 pC6).2.processing = [] ∧
      pC6 ∉ (process_modification false stC6 pC6).2.processing) ∧
    process_modification false stC6h pC6 = (none, stC6h) := by
  constructor
  · exact (guard_release_and_exclusivity false stC6 pC6).1 (by simp [stC6])
  · exact (guard_release_and_exclusivity false stC6h pC6).2 (by simp [stC6h])

/-- C7: the first modification event processed for a path with no prior
snapshot writes no ChangeRecord (and raises nothing), but does create a
snapshot holding the file's current content and size. -/
theorem first_observation_no_record (dbFail : Bool) (st : EngineState) (p : PPath)
    (content : String) (size : Nat) (t r : Bool)
    (hguard : p ∉ st.processing)
    (hfs : st.fs p = some (Node.file content size t r))
    (hshould : should_process st.fs p = true)
    (hshadow : st.shadows p = none) :
    (process_modification dbFail st p).1 = none ∧
    (process_modification dbFail st p).2.records = st.records ∧
    (process_modification dbFail st p).2.shadows p = some ⟨content, size⟩ := by
  obtain ⟨hr, ht⟩ := readOk_isText_of_should_process hfs hshould
  subst hr
  subst ht
  have hbody : process_modification_body dbFail
      { st with processing := addGuard st.processing p } p
      = (none, update_shadow { st with processing := addGuard st.processing p } p) := by
    simp [process_modification_body, hshould, hfs, has_shadow, hshadow]
  have hres : process_modification dbFail st p
      = (none, { update_shadow { st with processing := addGuard st.processing p } p with
            processing := dropGuard (update_shadow { st with
              processing := addGuard st.processing p } p).processing p }) := by
    unfold process_modification
    rw [if_neg hguard]
    dsimp only
    rw [hbody]
  rw [hres]
  refine ⟨rfl, ?_, ?_⟩
  · exact create_shadow_records _ _
  · exact create_shadow_shadows_self _ _ _ _ _ _ hfs

/-- C7, witness: the untracked file of `stC7` gets a snapshot but no
record. -/
theorem first_observation_no_record_witness :
    (process_modification false stC7 pC7).1 = none ∧
    (process_modification false stC7 pC7).2.records = [] ∧
    (process_modification false stC7 pC7).2.shadows pC7 = some ⟨"hello\n", 6⟩ := by
  have h := first_observation_no_record false stC7 pC7 "hello\n" 6 true true
    (by simp [stC7]) (by simp [stC7]) (by decide) (by simp [stC7])
  exact ⟨h.1, h.2.1, h.2.2⟩

/-- C8: a path containing a `.git` segment is never recorded or
snapshotted, whatever the filesystem holds at it: both handlers return
the state unchanged, for any state and either record-store behaviour. -/
theorem exclusion_filter_never_writes (dbFail : Bool) (st : EngineState) (p : PPath)
    (h : ".git" ∈ p) :
    process_modification dbFail st p = (none, st) ∧
    process_creation dbFail st p = (none, st) := by
  have hsp : should_process st.fs p = false :=
    should_process_false_of_seg st.fs p ".git" h (by decide)
  exact ⟨process_modification_of_filtered dbFail st p hsp,
    process_creation_of_filtered dbFail st p hsp⟩

/-- C8, witness: the `.git` path `pC8` in the empty state. -/
theorem exclusion_filter_never_writes_witness :
    process_modification false stC8 pC8 = (none, stC8) ∧
    process_creation false stC8 pC8 = (none, stC8) :=
  exclusion_filter_never_writes false stC8 pC8 (by decide)

/-- C9: a creation event for a path that already has a snapshot is not
treated specially: it appends a fresh `created` row (no `size_before`,
zero line counts) and overwrites the snapshot with the current content;
a duplicate creation notification appends a second identical row. -/
theorem duplicate_creation_records (st : EngineState) (p : PPath)
    (content : String) (size : Nat) (t r : Bool) (sh : Shadow)
    (hfs : st.fs p = some (Node.file content size t r))
    (hshould : should_process st.fs p = true)
    (_hshadow : st.shadows p = some sh) :
    (process_creation false st p).2.records
        = st.records ++ [⟨p, "created", none, some size, none, 0, 0, 0⟩] ∧
    (process_creation false st p).2.shadows p = some ⟨content, size⟩ ∧
    (process_creation false (process_creation false st p).2 p).2.records
        = st.records ++ [⟨p, "created", none, some size, none, 0, 0, 0⟩,
                         ⟨p, "created", none, some size, none, 0, 0, 0⟩] := by
  have h1 := process_creation_success st p content size t r hfs hshould
  have hrec1 : (process_creation false st p).2.records
      = st.records ++ [⟨p, "created", none, some size, none, 0, 0, 0⟩] := by
    rw [h1]
    dsimp only
    rw [create_shadow_records]
    simp [record_change]
  refine ⟨hrec1, ?_, ?_⟩
  · rw [h1]
    exact create_shadow_shadows_self _ _ _ _ _ _ hfs
  · have hfs1 : (process_creation false st p).2.fs p = some (Node.file content size t r) := by
      rw [h1]
      dsimp only
      rw [create_shadow_fs]
      exact hfs
    have hshould1 : should_process (process_creation false st p).2.fs p = true := by
      rw [h1]
      dsimp only
      rw [create_shadow_fs]
      exact hshould
    have h2 := process_creation_success (process_creation false st p).2 p content size t r
      hfs1 hshould1
    rw [h2]
    dsimp only
    rw [create_shadow_records]
    simp [record_change, hrec1]

/-- C9, witness: two creation events for `pC9`, which already has a
snapshot, produce two identical `created` rows and the refreshed
snapshot. -/
theorem duplicate_creation_records_witness :
    (process_creation false stC9 pC9).2.records
        = [⟨pC9, "created", none, some 2, none, 0, 0, 0⟩] ∧
    (process_creation false stC9 pC9).2.shadows pC9 = some ⟨"v\n", 2⟩ ∧
    (process_creation false (process_creation false stC9 pC9).2 pC9).2.records
        = [⟨pC9, "created", none, some 2, none, 0, 0, 0⟩,
           ⟨pC9, "created", none, some 2, none, 0, 0, 0⟩] := by
  have h := duplicate_creation_records stC9 pC9 "v\n" 2 true true ⟨"old\n", 4⟩
    (by simp [stC9]) (by decide) (by simp [stC9])
  exact ⟨h.1, h.2.1, h.2.2⟩

/-- C10: the exclusion filter runs over every segment of the full path:
whenever any segment of a prefix of the path (in particular of the watch
root, or the whole path itself) starts with `"."`, the path is rejected
and neither handler records or snapshots anything, in any state. -/
theorem hidden_root_excludes_all (dbFail : Bool) (st : EngineState) (root p : PPath)
    (s : String)
    (hpre : ∃ rest, p = root ++ rest)
    (hs : s ∈ root) (hdot : startswith s.data ['.'] = true) :
    should_process st.fs p = false ∧
    process_modification dbFail st p = (none, st) ∧
    process_creation dbFail st p = (none, st) := by
  obtain ⟨rest, hrest⟩ := hpre
  have hmem : s ∈ p := by
    rw [hrest]
    exact List.mem_append_left rest hs
  have hsp : should_process st.fs p = false :=
    should_process_false_of_seg st.fs p s hmem (by rw [hdot]; simp)
  exact ⟨hsp, process_modification_of_filtered dbFail st p hsp,
    process_creation_of_filtered dbFail st p hsp⟩

/-- C10, witness: a file beneath a watch root that lies under
`.config` is rejected and both handlers are no-ops. -/
theorem hidden_root_excludes_all_witness :
    should_process stC10.fs pC10 = false ∧
    process_modification false stC10 pC10 = (none, stC10) ∧
    process_creation false stC10 pC10 = (none, stC10) :=
  hidden_root_excludes_all false stC10 rootC10 pC10 ".config"
    ⟨["main.py"], by decide⟩ (by decide) (by decide)

end Viber
